import Mathlib

/-!
Shallow embedding of `multi_epoch_dp_matrix_factorization/matrix_io.py`
(library for loading and storing serialized matrix factorizations), together
with theorems settling the specification claims about it.

Conventions of the embedding:
* Python floats are modelled as exact rationals `ℚ` (and as reals `ℝ` where the
  source takes square roots); numpy dtypes are carried as an explicit tag.
* `str` values are Lean `String`s; `'/'.join` is modelled literally.
* Functions that `raise` are modelled as `Except MatError _`; functions whose
  only effects are `tf.io.write_file` calls return the ordered list of blob
  writes they perform together with an optional error.
* Python's `round` (round-half-to-even) is modelled by `roundHalfEven`.
-/

/-- Error taxonomy for the exceptions raised in `matrix_io.py`
(`ValueError` for bad momentum arguments and missing directories;
`assert` failures for dtype, reconstruction-tolerance, learning-rate length
and unexpected learning-rate vectors; `NotImplementedError` for an
unrecognized aggregator method). -/
inductive MatError where
  | invalidArgument
  | notFound
  | typeMismatch
  | reconstructionMismatch
  | sizeMismatch
  | assertionError
  | unsupportedMechanism
  deriving DecidableEq, Repr

/-- Default of the `matrix_root_path` flag (`_FACTORIZATION_ROOT`). -/
def MATRIX_ROOT_PATH : String := "/tmp/matrix_factorizations"

def W_MATRIX_STRING : String := "w_matrix_tensor_pb"

def H_MATRIX_STRING : String := "h_matrix_tensor_pb"

def LR_VECTOR_STRING : String := "lr_vector_tensor_pb"

def PREFIX_ONLINE_HONAKER : String := "prefix_online_honaker"

def PREFIX_FULL_HONAKER : String := "prefix_full_honaker"

def PREFIX_OPT : String := "prefix_opt"

/-- `_join_path(*args)`: `'/'.join(args)` — always `/`, never the OS separator. -/
def join_path : List String → String
  | [] => ""
  | [s] => s
  | s :: rest => s ++ "/" ++ join_path rest

/-- Decimal digit list of a natural number (most significant first), with a
structural fuel argument so that the kernel can evaluate it; `natDecimal`
supplies ample fuel. -/
def natDecimalAux : ℕ → ℕ → List Char
  | 0, _ => []
  | fuel + 1, n =>
    if n < 10 then [Nat.digitChar n]
    else natDecimalAux fuel (n / 10) ++ [Nat.digitChar (n % 10)]

/-- Decimal digit list of a natural number, most significant first; the model
of Python's `{n:d}` formatting. -/
def natDecimal (n : ℕ) : List Char :=
  natDecimalAux (n + 1) n

/-- Reads a decimal digit list back to the number it denotes. -/
def decodeDecimal (l : List Char) : ℕ :=
  l.foldl (fun a c => 10 * a + (c.toNat - 48)) 0

/-- `get_matrix_path(n, mechanism_name)`: joins the root, the mechanism name
and the literal segment `size=<n>` with `/`. -/
def get_matrix_path (n : ℕ) (mechanism_name : String) : String :=
  join_path [MATRIX_ROOT_PATH, mechanism_name, "size=" ++ String.mk (natDecimal n)]

/-- Round half to even on `ℚ`, the tie convention of Python's `round` and of
`format(x, '.0f')`. -/
def roundHalfEven (q : ℚ) : ℤ :=
  let f := ⌊q⌋
  let r := q - (f : ℚ)
  if r < 1/2 then f
  else if 1/2 < r then f + 1
  else if f % 2 = 0 then f else f + 1

/-- Python's `round(q, 2)`. -/
def round2 (q : ℚ) : ℚ := ((roundHalfEven (q * 100) : ℤ) : ℚ) / 100

/-- Left-pads a digit list with `'0'` to width 2, the `02` part of the
format spec `{x:02.0f}` (a minimum width: wider inputs are kept whole). -/
def zeroPad2 (l : List Char) : List Char :=
  if l.length < 2 then List.replicate (2 - l.length) '0' ++ l else l

/-- `{x:02.0f}` for the nonnegative values that reach it: round half to even
to an integer, then print in decimal with minimum width 2, zero-filled. -/
def fmtPercent (q : ℚ) : String :=
  String.mk (zeroPad2 (natDecimal (roundHalfEven q).toNat))

/-- `get_momentum_path(n, momentum)`: validates `0.0 <= momentum <= 1.0` and
`round(momentum, 2) == momentum` (each failure a `ValueError`), then delegates
to `get_matrix_path` with mechanism name `momentum_0p{100*momentum:02.0f}`. -/
def get_momentum_path (n : ℕ) (momentum : ℚ) : Except MatError String :=
  if ¬ (0 ≤ momentum ∧ momentum ≤ 1) then .error .invalidArgument
  else if round2 momentum ≠ momentum then .error .invalidArgument
  else .ok (get_matrix_path n ("momentum_0p" ++ fmtPercent (100 * momentum)))

/-- The literal part of the pattern `momentum_0p(\d\d)`. -/
def momentumTag : List Char := ['m', 'o', 'm', 'e', 'n', 't', 'u', 'm', '_', '0', 'p']

/-- Tries the regex `momentum_0p(\d\d)` anchored at the head of `l`: the
literal `momentum_0p` followed by two decimal digits; on a match, the
numeric value of the two matched digits. -/
def matchMomentumAt (l : List Char) : Option ℕ :=
  if momentumTag.isPrefixOf l then
    match l.drop 11 with
    | c1 :: c2 :: _ =>
      if c1.isDigit && c2.isDigit then
        some (10 * (c1.toNat - 48) + (c2.toNat - 48))
      else none
    | _ => none
  else none

/-- `re.search`: the two-digit value at the leftmost position where
`matchMomentumAt` succeeds. -/
def searchMomentum : List Char → Option ℕ
  | [] => none
  | c :: rest =>
    match matchMomentumAt (c :: rest) with
    | some v => some v
    | none => searchMomentum rest

/-- `infer_momentum_from_path(path)`: searches the path for
`momentum_0p(\d\d)` and returns `float(group(1)) / 100`, else `None`. -/
def infer_momentum_from_path (path : String) : Option ℚ :=
  match searchMomentum path.data with
  | some v => some ((v : ℚ) / 100)
  | none => none

/-- The canonical mechanism identifiers of the module. -/
def canonical_mechanisms : List String :=
  [PREFIX_OPT, PREFIX_ONLINE_HONAKER, PREFIX_FULL_HONAKER]

/-- numpy dtype tag carried by a tensor. -/
inductive DType where
  | float64
  | float32
  deriving DecidableEq, Repr

/-- A dense 2-D tensor over a scalar type: a dtype tag, the two dimensions,
and the entries (indices beyond the dimensions are junk no definition reads). -/
structure Tensor (α : Type) where
  dtype : DType
  rows : ℕ
  cols : ℕ
  entries : ℕ → ℕ → α

/-- `w @ h`: the standard matrix product. -/
def matmul {α : Type} [CommRing α] (w h : Tensor α) : Tensor α :=
  ⟨w.dtype, w.rows, h.cols,
   fun i j => ∑ k ∈ Finset.range w.cols, w.entries i k * h.entries k j⟩

def RTOL : ℚ := 1 / 1000000

def ATOL : ℚ := 1 / 100000000

/-- `np.testing.assert_allclose(actual, desired, rtol=1e-6, atol=1e-8)`:
the shapes must agree and every element must satisfy
`|actual - desired| <= atol + rtol * |desired|` — the relative part is
measured against `desired`, the second argument. -/
def allclose (actual desired : Tensor ℚ) : Prop :=
  actual.rows = desired.rows ∧ actual.cols = desired.cols ∧
  ∀ i < actual.rows, ∀ j < actual.cols,
    |actual.entries i j - desired.entries i j| ≤
      ATOL + RTOL * |desired.entries i j|

instance (a d : Tensor ℚ) : Decidable (allclose a d) :=
  inferInstanceAs (Decidable (_ ∧ _ ∧ ∀ i < a.rows, ∀ j < a.cols,
    |a.entries i j - d.entries i j| ≤ ATOL + RTOL * |d.entries i j|))

/-- `verify_reconstruction(w, h, s)`: asserts both factor dtypes are float64,
then `np.testing.assert_allclose(s_matrix, w @ h, rtol=1e-6, atol=1e-8)`
(note the argument order: `s` is `actual`, the reconstruction is `desired`). -/
def verify_reconstruction (w h s : Tensor ℚ) : Except MatError Unit :=
  if w.dtype ≠ DType.float64 then .error .typeMismatch
  else if h.dtype ≠ DType.float64 then .error .typeMismatch
  else if allclose s (matmul w h) then .ok () else .error .reconstructionMismatch

/-- The tolerance predicate exactly as the spec and claim C2 word it:
every element of R = W @ H satisfies
`|R[i,j] - S[i,j]| <= atol + rtol * |S[i,j]|`, the relative part measured
against S.  Stated from the spec's words for comparison with the source,
whose `assert_allclose(s, R)` measures the relative part against R. -/
def specToleranceAgainstS (w h s : Tensor ℚ) : Prop :=
  ∀ i < s.rows, ∀ j < s.cols,
    |(matmul w h).entries i j - s.entries i j| ≤ ATOL + RTOL * |s.entries i j|

/-- All-ones 1-by-1 float64 rational tensor, used by several witnesses. -/
def oneT : Tensor ℚ := ⟨DType.float64, 1, 1, fun _ _ => 1⟩

/-- A float32-tagged tensor, rejected by the dtype assertions. -/
def badW32 : Tensor ℚ := ⟨DType.float32, 1, 1, fun _ _ => 1⟩

def cexW : Tensor ℚ := ⟨DType.float64, 1, 1, fun _ _ => 1⟩

def cexH : Tensor ℚ := ⟨DType.float64, 1, 1, fun _ _ => 10000005 / 1000000000000000⟩

def cexS : Tensor ℚ := ⟨DType.float64, 1, 1, fun _ _ => 0⟩

/-- A serialized blob as written by `tf.io.write_file`. -/
inductive Blob where
  | tensorBlob (t : Tensor ℚ)
  | vectorBlob (v : List ℚ)

/-- `verify_and_write(w, h, s, output_dir, lr_sched)`: runs
`verify_reconstruction` first; on success writes the W blob then the H blob;
then, only if `lr_sched` was supplied, asserts
`len(lr_sched) == h_matrix.shape[1]` and writes the learning-rate blob.
The result is the ordered list of blob writes performed before returning or
raising, together with the escaping error, if any. -/
def verify_and_write (w h s : Tensor ℚ) (output_dir : String)
    (lr_sched : Option (List ℚ)) : List (String × Blob) × Option MatError :=
  match verify_reconstruction w h s with
  | .error e => ([], some e)
  | .ok _ =>
    let writes := [(join_path [output_dir, W_MATRIX_STRING], Blob.tensorBlob w),
                   (join_path [output_dir, H_MATRIX_STRING], Blob.tensorBlob h)]
    match lr_sched with
    | none => (writes, none)
    | some lr =>
      if lr.length = h.cols then
        (writes ++ [(join_path [output_dir, LR_VECTOR_STRING], Blob.vectorBlob lr)], none)
      else (writes, some .sizeMismatch)

/-- The blob-store collaborator seen by the loaders: directory existence
(`tf.io.gfile.exists`/`isdir`) and blob contents at paths
(`tf.io.read_file` + `tf.io.parse_tensor`). -/
structure BlobStore where
  isdir : String → Bool
  blob : String → Option (Tensor ℚ)

/-- `load_w_h_and_maybe_lr(path)`: requires the directory to exist, reads the
mandatory W and H blobs (a missing one is a read failure), and reads the
learning-rate blob only when it exists, returning `none` for it otherwise. -/
def load_w_h_and_maybe_lr (fs : BlobStore) (path : String) :
    Except MatError (Tensor ℚ × Tensor ℚ × Option (Tensor ℚ)) :=
  if fs.isdir path then
    match fs.blob (join_path [path, W_MATRIX_STRING]),
          fs.blob (join_path [path, H_MATRIX_STRING]) with
    | some w, some h => .ok (w, h, fs.blob (join_path [path, LR_VECTOR_STRING]))
    | _, _ => .error .notFound
  else .error .notFound

/-- The dispatch at the head of `get_prefix_sum_w_h`: canonical and legacy
aggregator names resolve to a matrix path; anything else raises
`NotImplementedError`. -/
def resolve_prefix_sum_path (n : ℕ) (aggregator_method : String) :
    Except MatError String :=
  if aggregator_method = "opt_prefix_sum_matrix" ∨ aggregator_method = PREFIX_OPT then
    .ok (get_matrix_path n PREFIX_OPT)
  else if aggregator_method = "streaming_honaker_matrix" ∨
      aggregator_method = PREFIX_ONLINE_HONAKER then
    .ok (get_matrix_path n PREFIX_ONLINE_HONAKER)
  else if aggregator_method = "full_honaker_matrix" ∨
      aggregator_method = PREFIX_FULL_HONAKER then
    .ok (get_matrix_path n PREFIX_FULL_HONAKER)
  else .error .unsupportedMechanism

/-- `get_prefix_sum_w_h(n, aggregator_method)`: resolves the path, loads the
artifact, asserts `lr_vector is None`, and returns (W, H). -/
def get_prefix_sum_w_h (fs : BlobStore) (n : ℕ) (aggregator_method : String) :
    Except MatError (Tensor ℚ × Tensor ℚ) :=
  match resolve_prefix_sum_path n aggregator_method with
  | .error e => .error e
  | .ok path =>
    match load_w_h_and_maybe_lr fs path with
    | .error e => .error e
    | .ok (w, h, lr) =>
      match lr with
      | some _ => .error .assertionError
      | none => .ok (w, h)

/-- A store in which every path is a directory and every blob exists. -/
def fullStore : BlobStore := ⟨fun _ => true, fun _ => some oneT⟩

/-- Column j's Euclidean norm, `np.linalg.norm(h_matrix, axis=0)[j]`. -/
noncomputable def colNorm (h : Tensor ℝ) (j : ℕ) : ℝ :=
  Real.sqrt (∑ i ∈ Finset.range h.rows, h.entries i j ^ 2)

/-- `np.max(np.linalg.norm(h_matrix, axis=0))`.  Column norms are
nonnegative, so folding `max` from 0 agrees with `np.max` on every nonempty
list of columns. -/
noncomputable def maxColNorm (h : Tensor ℝ) : ℝ :=
  ((List.range h.cols).map (colNorm h)).foldl max 0

/-- Elementwise scalar multiplication `w_matrix * c`. -/
def scaleMul (w : Tensor ℝ) (c : ℝ) : Tensor ℝ :=
  ⟨w.dtype, w.rows, w.cols, fun i j => w.entries i j * c⟩

/-- Elementwise scalar division `h_matrix / c`. -/
noncomputable def scaleDiv (h : Tensor ℝ) (c : ℝ) : Tensor ℝ :=
  ⟨h.dtype, h.rows, h.cols, fun i j => h.entries i j / c⟩

/-- `scale_w_h_by_single_participation_sensitivity(w, h)`: computes the
maximum column norm of H and returns `(w * max_col_norm, h / max_col_norm)`,
with no guard against a zero norm. -/
noncomputable def scale_w_h_by_single_participation_sensitivity (w h : Tensor ℝ) :
    Tensor ℝ × Tensor ℝ :=
  (scaleMul w (maxColNorm h), scaleDiv h (maxColNorm h))

/-- All-ones 1-by-1 float64 real tensor. -/
def realOneT : Tensor ℝ := ⟨DType.float64, 1, 1, fun _ _ => 1⟩

/-- All-zero 1-by-1 float64 real tensor. -/
def zeroT : Tensor ℝ := ⟨DType.float64, 1, 1, fun _ _ => 0⟩

/-! ### Theorems -/

theorem digitChar_toNat_sub (d : ℕ) (h : d < 10) : (Nat.digitChar d).toNat - 48 = d := by
  interval_cases d <;> rfl

theorem digitChar_isDigit (d : ℕ) (h : d < 10) : (Nat.digitChar d).isDigit = true := by
  interval_cases d <;> rfl

theorem natDecimalAux_small (fuel n : ℕ) (hn : n < 10) (hf : 0 < fuel) :
    natDecimalAux fuel n = [Nat.digitChar n] := by
  cases fuel with
  | zero => omega
  | succ f => simp [natDecimalAux, hn]

theorem natDecimal_small (n : ℕ) (hn : n < 10) : natDecimal n = [Nat.digitChar n] :=
  natDecimalAux_small _ _ hn (by omega)

theorem natDecimal_two_digits (k : ℕ) (h10 : 10 ≤ k) (h99 : k ≤ 99) :
    natDecimal k = [Nat.digitChar (k / 10), Nat.digitChar (k % 10)] := by
  rw [natDecimal]
  rw [show k + 1 = k + 1 from rfl]
  rw [natDecimalAux]
  rw [if_neg (by omega)]
  rw [natDecimalAux_small _ _ (by omega) (by omega)]
  rfl

theorem zeroPad2_natDecimal (k : ℕ) (h99 : k ≤ 99) :
    zeroPad2 (natDecimal k) = [Nat.digitChar (k / 10), Nat.digitChar (k % 10)] := by
  by_cases h : k < 10
  · rw [natDecimal_small _ h, zeroPad2, if_pos (by simp)]
    have h0 : k / 10 = 0 := by omega
    have h1 : k % 10 = k := by omega
    rw [h0, h1]
    rfl
  · rw [natDecimal_two_digits _ (by omega) h99, zeroPad2, if_neg (by simp)]

theorem decodeDecimal_aux (fuel : ℕ) : ∀ n, n < 10 ^ fuel →
    decodeDecimal (natDecimalAux fuel n) = n := by
  induction fuel with
  | zero => intro n hn; interval_cases n; rfl
  | succ f ih =>
    intro n hn
    rw [natDecimalAux]
    by_cases h : n < 10
    · rw [if_pos h]
      simp [decodeDecimal, digitChar_toNat_sub _ h]
    · rw [if_neg h]
      have hdiv : n / 10 < 10 ^ f := by
        rw [Nat.div_lt_iff_lt_mul (by omega)]
        calc n < 10 ^ (f + 1) := hn
        _ = 10 ^ f * 10 := by ring
      have := ih (n / 10) hdiv
      rw [decodeDecimal, List.foldl_append]
      rw [decodeDecimal] at this
      rw [this]
      simp [digitChar_toNat_sub _ (Nat.mod_lt n (by omega))]
      omega

theorem decodeDecimal_natDecimal (n : ℕ) : decodeDecimal (natDecimal n) = n := by
  apply decodeDecimal_aux
  calc n < 10 ^ n := Nat.lt_pow_self (by omega) n
  _ ≤ 10 ^ (n + 1) := Nat.pow_le_pow_right (by omega) (by omega)

theorem natDecimal_injective (a b : ℕ) (h : natDecimal a = natDecimal b) : a = b := by
  have := decodeDecimal_natDecimal a
  rw [h, decodeDecimal_natDecimal] at this
  omega

theorem roundHalfEven_intCast (z : ℤ) : roundHalfEven (z : ℚ) = z := by
  rw [roundHalfEven]
  simp

/-- A successful anchored match: at a position carrying the literal
`momentum_0p` followed by two digit characters, the search stops and returns
the value of the two digits. -/
theorem searchMomentum_hit (c1 c2 : Char) (h1 : c1.isDigit = true) (h2 : c2.isDigit = true)
    (rest : List Char) :
    searchMomentum ('m' :: 'o' :: 'm' :: 'e' :: 'n' :: 't' :: 'u' :: 'm' :: '_' :: '0' ::
        'p' :: c1 :: c2 :: rest) = some (10 * (c1.toNat - 48) + (c2.toNat - 48)) := by
  rw [searchMomentum]
  rw [show matchMomentumAt ('m' :: 'o' :: 'm' :: 'e' :: 'n' :: 't' :: 'u' :: 'm' :: '_' ::
      '0' :: 'p' :: c1 :: c2 :: rest) =
      (if c1.isDigit && c2.isDigit then some (10 * (c1.toNat - 48) + (c2.toNat - 48))
       else none) from rfl]
  rw [if_pos (by rw [h1, h2]; rfl)]

/-- Scanning a path rooted at the default `/tmp/matrix_factorizations` for the
momentum pattern: no position inside the root matches, so the first candidate
position is the genuine mechanism segment. -/
theorem searchMomentum_defaultRoot (c1 c2 : Char) (h1 : c1.isDigit = true)
    (h2 : c2.isDigit = true) (rest : List Char) :
    searchMomentum ('/' :: 't' :: 'm' :: 'p' :: '/' :: 'm' :: 'a' :: 't' :: 'r' :: 'i' ::
        'x' :: '_' :: 'f' :: 'a' :: 'c' :: 't' :: 'o' :: 'r' :: 'i' :: 'z' :: 'a' :: 't' ::
        'i' :: 'o' :: 'n' :: 's' :: '/' :: 'm' :: 'o' :: 'm' :: 'e' :: 'n' :: 't' :: 'u' ::
        'm' :: '_' :: '0' :: 'p' :: c1 :: c2 :: rest) =
      some (10 * (c1.toNat - 48) + (c2.toNat - 48)) :=
  searchMomentum_hit c1 c2 h1 h2 rest

theorem roundHalfEven_hundred : roundHalfEven (100 : ℚ) = 100 := by
  rw [roundHalfEven]
  norm_num

/-- C6: for every n, `get_momentum_path n m` fails with the `ValueError`
modelled as `invalidArgument` whenever `m` lies outside `[0, 1]` or
`round(m, 2) ≠ m`; the particular inputs 1.005, -0.1 and 1.5 are covered by
the witness below. -/
theorem momentum_path_invalid (n : ℕ) (m : ℚ)
    (h : ¬ (0 ≤ m ∧ m ≤ 1) ∨ round2 m ≠ m) :
    get_momentum_path n m = .error .invalidArgument := by
  rw [get_momentum_path]
  by_cases h01 : ¬ (0 ≤ m ∧ m ≤ 1)
  · rw [if_pos h01]
  · rw [if_neg h01]
    rcases h with h | h
    · exact absurd h h01
    · rw [if_pos h]

/-- Witness for C6 at the three inputs named by the claim: 1.005, -0.1, 1.5
(all outside `[0, 1]`, so the range check already rejects them). -/
theorem momentum_path_invalid_witness :
    get_momentum_path 10 (1005 / 1000) = .error .invalidArgument ∧
    get_momentum_path 10 (-(1 / 10)) = .error .invalidArgument ∧
    get_momentum_path 10 (3 / 2) = .error .invalidArgument :=
  ⟨momentum_path_invalid 10 _ (.inl (by norm_num)),
   momentum_path_invalid 10 _ (.inl (by norm_num)),
   momentum_path_invalid 10 _ (.inl (by norm_num))⟩

/-- C1 (amended): the round trip
`infer_momentum_from_path (get_momentum_path n m) = m` holds for every
two-decimal momentum in `[0, 1)`.  At `m = 1` it fails (see the
counterexample): the percentage formats as the three digits `100`, of which
the regex reads back only the first two. -/
theorem momentum_roundtrip (n : ℕ) (m : ℚ) (h0 : 0 ≤ m) (h1 : m < 1)
    (hr : round2 m = m) :
    ∃ p, get_momentum_path n m = .ok p ∧ infer_momentum_from_path p = some m := by
  have hz : ((roundHalfEven (m * 100) : ℤ) : ℚ) / 100 = m := hr
  set z := roundHalfEven (m * 100) with hzdef
  have hzq : (z : ℚ) = 100 * m := by
    field_simp at hz
    linarith
  have hz0 : 0 ≤ z := by
    have h : (0 : ℚ) ≤ (z : ℚ) := by rw [hzq]; positivity
    exact_mod_cast h
  have hz100 : z < 100 := by
    have h : (z : ℚ) < 100 := by rw [hzq]; linarith
    exact_mod_cast h
  set k := z.toNat with hkdef
  have hkz : (k : ℤ) = z := Int.toNat_of_nonneg hz0
  have hk99 : k ≤ 99 := by omega
  have hd1 : (Nat.digitChar (k / 10)).isDigit = true := digitChar_isDigit _ (by omega)
  have hd2 : (Nat.digitChar (k % 10)).isDigit = true := digitChar_isDigit _ (by omega)
  rw [get_momentum_path, if_neg (not_not_intro ⟨h0, h1.le⟩), if_neg (not_not_intro hr)]
  refine ⟨_, rfl, ?_⟩
  have hfmt : fmtPercent (100 * m) =
      String.mk [Nat.digitChar (k / 10), Nat.digitChar (k % 10)] := by
    rw [fmtPercent, mul_comm (100 : ℚ) m, ← hzdef, ← hkdef, zeroPad2_natDecimal _ hk99]
  rw [hfmt]
  have hscan := searchMomentum_defaultRoot (Nat.digitChar (k / 10)) (Nat.digitChar (k % 10))
    hd1 hd2 ('/' :: 's' :: 'i' :: 'z' :: 'e' :: '=' :: natDecimal n)
  rw [digitChar_toNat_sub _ (by omega), digitChar_toNat_sub _ (by omega)] at hscan
  rw [show 10 * (k / 10) + k % 10 = k from by omega] at hscan
  have hpath : searchMomentum (get_matrix_path n
      ("momentum_0p" ++ String.mk [Nat.digitChar (k / 10), Nat.digitChar (k % 10)])).data =
      some k := hscan
  rw [infer_momentum_from_path, hpath]
  have hcast : (k : ℚ) = 100 * m := by
    rw [← hzq]
    exact_mod_cast congrArg (fun t : ℤ => (t : ℚ)) hkz
  show some ((k : ℚ) / 100) = some m
  rw [hcast]
  norm_num

/-- Witness for C1 (amended) at n = 4, m = 0.37. -/
theorem momentum_roundtrip_witness :
    ∃ p, get_momentum_path 4 (37 / 100) = .ok p ∧
      infer_momentum_from_path p = some (37 / 100) := by
  refine momentum_roundtrip 4 (37 / 100) (by norm_num) (by norm_num) ?_
  rw [round2, show (37 : ℚ) / 100 * 100 = ((37 : ℤ) : ℚ) from by norm_num,
    roundHalfEven_intCast]
  norm_num

/-- Counterexample to C1 as stated: m = 1 is in `[0, 1]` and expressible in
two decimals, the resolver accepts it and formats the segment
`momentum_0p100`, but extraction reads the two digits `10` back as 0.10,
not 1. -/
theorem momentum_roundtrip_counterexample :
    get_momentum_path 4 1 = .ok "/tmp/matrix_factorizations/momentum_0p100/size=4" ∧
    infer_momentum_from_path "/tmp/matrix_factorizations/momentum_0p100/size=4" =
      some (1 / 10) ∧
    ((1 : ℚ) / 10) ≠ 1 := by
  refine ⟨?_, ?_, by norm_num⟩
  · have hr : round2 (1 : ℚ) = 1 := by
      rw [round2, show (1 : ℚ) * 100 = 100 from by norm_num, roundHalfEven_hundred]
      norm_num
    rw [get_momentum_path, if_neg (by norm_num), if_neg (not_not_intro hr)]
    rw [show (100 : ℚ) * 1 = 100 from by norm_num, fmtPercent, roundHalfEven_hundred]
    rfl
  · rw [infer_momentum_from_path,
      show searchMomentum "/tmp/matrix_factorizations/momentum_0p100/size=4".data =
        some 10 from by decide]
    norm_num

theorem string_data_inj (s t : String) (h : s.data = t.data) : s = t := by
  cases s
  cases t
  simp_all

theorem append_slash_inj (a : List Char) : ∀ b c d : List Char, '/' ∉ a → '/' ∉ b →
    a ++ '/' :: c = b ++ '/' :: d → a = b ∧ c = d := by
  induction a with
  | nil =>
    intro b c d _ hb h
    cases b with
    | nil => simpa using h
    | cons y ys =>
      simp at h
      exact absurd (by rw [← h.1]; exact List.mem_cons_self _ _) hb
  | cons x xs ih =>
    intro b c d ha hb h
    cases b with
    | nil =>
      simp at h
      exact absurd (by rw [h.1]; exact List.mem_cons_self _ _) ha
    | cons y ys =>
      simp at h
      obtain ⟨hxy, htail⟩ := h
      obtain ⟨h1, h2⟩ := ih ys c d (fun hm => ha (List.mem_cons_of_mem _ hm))
        (fun hm => hb (List.mem_cons_of_mem _ hm)) htail
      exact ⟨by rw [hxy, h1], h2⟩

theorem get_matrix_path_data (n : ℕ) (name : String) :
    (get_matrix_path n name).data =
      MATRIX_ROOT_PATH.data ++ '/' :: (name.data ++ '/' ::
        ('s' :: 'i' :: 'z' :: 'e' :: '=' :: natDecimal n)) := by
  show ((MATRIX_ROOT_PATH ++ "/") ++ ((name ++ "/") ++
      ("size=" ++ String.mk (natDecimal n)))).data = _
  simp [String.data_append, List.append_assoc]

/-- C7: over the canonical mechanism identifiers, `get_matrix_path` is
deterministic and injective — two (n, mechanism) pairs resolve to the same
path exactly when they are the same pair — and the path is the root, the
mechanism name and `size=<n>` joined by `/`. -/
theorem matrix_path_deterministic_injective (n1 n2 : ℕ) (name1 name2 : String)
    (h1 : name1 ∈ canonical_mechanisms) (h2 : name2 ∈ canonical_mechanisms) :
    (get_matrix_path n1 name1 = get_matrix_path n2 name2 ↔ n1 = n2 ∧ name1 = name2) ∧
    get_matrix_path n1 name1 =
      MATRIX_ROOT_PATH ++ "/" ++ name1 ++ "/" ++ ("size=" ++ String.mk (natDecimal n1)) := by
  have hslash1 : '/' ∉ name1.data := by fin_cases h1 <;> decide
  have hslash2 : '/' ∉ name2.data := by fin_cases h2 <;> decide
  constructor
  · constructor
    · intro h
      have hd := congrArg String.data h
      rw [get_matrix_path_data, get_matrix_path_data] at hd
      have hd2 := List.append_cancel_left hd
      simp only [List.cons.injEq, true_and] at hd2
      obtain ⟨hname, hrest⟩ := append_slash_inj _ _ _ _ hslash1 hslash2 hd2
      simp only [List.cons.injEq, true_and] at hrest
      exact ⟨natDecimal_injective _ _ hrest, string_data_inj _ _ hname⟩
    · rintro ⟨rfl, rfl⟩
      rfl
  · apply string_data_inj
    rw [get_matrix_path_data]
    simp [String.data_append, List.append_assoc]

/-- Witness for C7 at n = 4 versus n = 7 with the canonical `prefix_opt`. -/
theorem matrix_path_deterministic_injective_witness :
    (get_matrix_path 4 PREFIX_OPT = get_matrix_path 7 PREFIX_OPT ↔
      4 = 7 ∧ PREFIX_OPT = PREFIX_OPT) ∧
    get_matrix_path 4 PREFIX_OPT =
      MATRIX_ROOT_PATH ++ "/" ++ PREFIX_OPT ++ "/" ++ ("size=" ++ String.mk (natDecimal 4)) :=
  matrix_path_deterministic_injective 4 7 PREFIX_OPT PREFIX_OPT (by decide) (by decide)

/-- C2 (amended): for float64 W and H with compatible inner dimensions,
`verify_reconstruction` succeeds iff S has the shape of R = W @ H and every
element satisfies `|S[i,j] - R[i,j]| <= 1e-8 + 1e-6 * |R[i,j]|`: the relative
tolerance is measured against the reconstruction R (the `desired` argument of
`assert_allclose`), not against S as the claim states. -/
theorem verify_reconstruction_iff (w h s : Tensor ℚ)
    (hw : w.dtype = DType.float64) (hh : h.dtype = DType.float64)
    (_hwh : w.cols = h.rows) :
    verify_reconstruction w h s = .ok () ↔
      (s.rows = w.rows ∧ s.cols = h.cols ∧
        ∀ i < s.rows, ∀ j < s.cols,
          |s.entries i j - (matmul w h).entries i j| ≤
            ATOL + RTOL * |(matmul w h).entries i j|) := by
  rw [verify_reconstruction, if_neg (by simp [hw]), if_neg (by simp [hh])]
  by_cases hall : allclose s (matmul w h)
  · rw [if_pos hall]
    exact ⟨fun _ => ⟨hall.1, hall.2.1, hall.2.2⟩, fun _ => rfl⟩
  · rw [if_neg hall]
    constructor
    · intro hcontra
      cases hcontra
    · intro hrhs
      exact absurd ⟨hrhs.1, hrhs.2.1, hrhs.2.2⟩ hall

/-- Witness for C2 (amended) at 1-by-1 all-ones tensors. -/
theorem verify_reconstruction_iff_witness :
    verify_reconstruction oneT oneT oneT = .ok () ↔
      (oneT.rows = oneT.rows ∧ oneT.cols = oneT.cols ∧
        ∀ i < oneT.rows, ∀ j < oneT.cols,
          |oneT.entries i j - (matmul oneT oneT).entries i j| ≤
            ATOL + RTOL * |(matmul oneT oneT).entries i j|) :=
  verify_reconstruction_iff oneT oneT oneT rfl rfl rfl

/-- Counterexample to C2 as stated: with W = [[1]], H = [[1.0000005e-8]],
S = [[0]] (all float64), the difference 1.0000005e-8 exceeds
atol + rtol * |S| = 1e-8, so the claimed criterion fails, yet the source's
check `|S - R| <= atol + rtol * |R|` holds and verification succeeds. -/
theorem verify_reconstruction_counterexample :
    verify_reconstruction cexW cexH cexS = .ok () ∧
    ¬ specToleranceAgainstS cexW cexH cexS := by
  have habs1 : |(0 : ℚ) - 1 * (10000005 / 1000000000000000)| =
      10000005 / 1000000000000000 := by
    rw [abs_of_nonpos (by norm_num)]
    norm_num
  have habs2 : |(1 : ℚ) * (10000005 / 1000000000000000)| =
      10000005 / 1000000000000000 := by
    rw [abs_of_nonneg (by norm_num)]
    norm_num
  have habs3 : |(1 : ℚ) * (10000005 / 1000000000000000) - 0| =
      10000005 / 1000000000000000 := by
    rw [abs_of_nonneg (by norm_num)]
    norm_num
  constructor
  · rw [verify_reconstruction, if_neg (by decide), if_neg (by decide), if_pos]
    refine ⟨rfl, rfl, ?_⟩
    intro i hi j hj
    have hi1 : i < 1 := hi
    have hj1 : j < 1 := hj
    obtain rfl := Nat.lt_one_iff.mp hi1
    obtain rfl := Nat.lt_one_iff.mp hj1
    show |(0 : ℚ) - ∑ k ∈ Finset.range 1, cexW.entries 0 k * cexH.entries k 0| ≤
      ATOL + RTOL * |∑ k ∈ Finset.range 1, cexW.entries 0 k * cexH.entries k 0|
    rw [Finset.sum_range_one]
    show |(0 : ℚ) - 1 * (10000005 / 1000000000000000)| ≤
      ATOL + RTOL * |1 * (10000005 / 1000000000000000)|
    rw [ATOL, RTOL, habs1, habs2]
    norm_num
  · intro hspec
    have hone := hspec 0 (by norm_num [cexS]) 0 (by norm_num [cexS])
    rw [show (matmul cexW cexH).entries 0 0 =
      ∑ k ∈ Finset.range 1, cexW.entries 0 k * cexH.entries k 0 from rfl,
      Finset.sum_range_one] at hone
    rw [show cexW.entries 0 0 = 1 from rfl, show cexH.entries 0 0 =
      10000005 / 1000000000000000 from rfl, show cexS.entries 0 0 = 0 from rfl,
      ATOL, RTOL, habs3, abs_zero] at hone
    norm_num at hone

theorem verify_ok_oneT : verify_reconstruction oneT oneT oneT = .ok () := by
  rw [verify_reconstruction, if_neg (by decide), if_neg (by decide), if_pos]
  refine ⟨rfl, rfl, ?_⟩
  intro i hi j hj
  have hi1 : i < 1 := hi
  have hj1 : j < 1 := hj
  obtain rfl := Nat.lt_one_iff.mp hi1
  obtain rfl := Nat.lt_one_iff.mp hj1
  show |(1 : ℚ) - ∑ k ∈ Finset.range 1, oneT.entries 0 k * oneT.entries k 0| ≤
    ATOL + RTOL * |∑ k ∈ Finset.range 1, oneT.entries 0 k * oneT.entries k 0|
  rw [Finset.sum_range_one]
  show |(1 : ℚ) - 1 * 1| ≤ ATOL + RTOL * |(1 : ℚ) * 1|
  rw [ATOL, RTOL]
  norm_num

/-- C3: when verification fails — a dtype assertion (TypeMismatch) or the
tolerance check (ReconstructionMismatch) — `verify_and_write` propagates the
error and performs no blob writes at all. -/
theorem verify_and_write_no_writes_on_failure (w h s : Tensor ℚ) (dir : String)
    (lr : Option (List ℚ)) (e : MatError)
    (hfail : verify_reconstruction w h s = .error e) :
    verify_and_write w h s dir lr = ([], some e) := by
  rw [verify_and_write, hfail]

/-- Witness for C3: a float32 W is rejected by verification and nothing is
written. -/
theorem verify_and_write_no_writes_on_failure_witness :
    verify_and_write badW32 oneT oneT "/tmp/out" none = ([], some MatError.typeMismatch) :=
  verify_and_write_no_writes_on_failure badW32 oneT oneT "/tmp/out" none
    MatError.typeMismatch rfl

/-- C8: with a passing verification and a learning-rate vector whose length
differs from H's column count, `verify_and_write` fails with the assertion
modelled as SizeMismatch. -/
theorem verify_and_write_size_mismatch (w h s : Tensor ℚ) (dir : String) (lr : List ℚ)
    (hok : verify_reconstruction w h s = .ok ()) (hlen : lr.length ≠ h.cols) :
    (verify_and_write w h s dir (some lr)).2 = some MatError.sizeMismatch := by
  rw [verify_and_write, hok]
  simp [hlen]

/-- Witness for C8: a passing 1-by-1 factorization with a length-2
learning-rate vector. -/
theorem verify_and_write_size_mismatch_witness :
    (verify_and_write oneT oneT oneT "/tmp/out" (some [1, 2])).2 =
      some MatError.sizeMismatch :=
  verify_and_write_size_mismatch oneT oneT oneT "/tmp/out" [1, 2] verify_ok_oneT
    (by decide)

/-- C9: the learning-rate length check happens only after the W and H blobs
are written: on a length mismatch the two mandatory writes have been
performed, no learning-rate blob is written, and the error escapes, leaving a
partial artifact at the output directory. -/
theorem verify_and_write_mandatory_blobs_first (w h s : Tensor ℚ) (dir : String) (lr : List ℚ)
    (hok : verify_reconstruction w h s = .ok ()) (hlen : lr.length ≠ h.cols) :
    verify_and_write w h s dir (some lr) =
      ([(join_path [dir, W_MATRIX_STRING], Blob.tensorBlob w),
        (join_path [dir, H_MATRIX_STRING], Blob.tensorBlob h)],
       some MatError.sizeMismatch) := by
  rw [verify_and_write, hok]
  simp [hlen]

/-- Witness for C9 at the same inputs as the C8 witness. -/
theorem verify_and_write_mandatory_blobs_first_witness :
    verify_and_write oneT oneT oneT "/tmp/out" (some [1, 2]) =
      ([(join_path ["/tmp/out", W_MATRIX_STRING], Blob.tensorBlob oneT),
        (join_path ["/tmp/out", H_MATRIX_STRING], Blob.tensorBlob oneT)],
       some MatError.sizeMismatch) :=
  verify_and_write_mandatory_blobs_first oneT oneT oneT "/tmp/out" [1, 2] verify_ok_oneT
    (by decide)

/-- C10: for a recognized aggregator method resolving to `path`,
`get_prefix_sum_w_h` fails with the `assert lr_vector is None` failure
whenever the artifact stored at `path` carries a learning-rate blob, and
whenever it succeeds the loaded artifact carried none. -/
theorem prefix_sum_rejects_lr (fs : BlobStore) (n : ℕ) (method path : String)
    (hres : resolve_prefix_sum_path n method = .ok path) :
    ((fs.isdir path = true ∧ (fs.blob (join_path [path, W_MATRIX_STRING])).isSome ∧
        (fs.blob (join_path [path, H_MATRIX_STRING])).isSome ∧
        (fs.blob (join_path [path, LR_VECTOR_STRING])).isSome) →
      get_prefix_sum_w_h fs n method = .error .assertionError) ∧
    (∀ w h, get_prefix_sum_w_h fs n method = .ok (w, h) →
      fs.blob (join_path [path, LR_VECTOR_STRING]) = none) := by
  constructor
  · rintro ⟨hdir, hw, hh, hlr⟩
    obtain ⟨w, hw1⟩ := Option.isSome_iff_exists.mp hw
    obtain ⟨h, hh1⟩ := Option.isSome_iff_exists.mp hh
    obtain ⟨lr, hlr1⟩ := Option.isSome_iff_exists.mp hlr
    have hload : load_w_h_and_maybe_lr fs path = .ok (w, h, some lr) := by
      unfold load_w_h_and_maybe_lr
      rw [if_pos hdir, hw1, hh1, hlr1]
    simp only [get_prefix_sum_w_h, hres, hload]
  · intro w h hok
    simp only [get_prefix_sum_w_h, hres] at hok
    by_cases hdir : fs.isdir path
    · cases hwb : fs.blob (join_path [path, W_MATRIX_STRING]) with
      | none =>
        have hload : load_w_h_and_maybe_lr fs path = .error .notFound := by
          unfold load_w_h_and_maybe_lr
          rw [if_pos hdir, hwb]
        simp only [hload] at hok
        simp at hok
      | some wv =>
        cases hhb : fs.blob (join_path [path, H_MATRIX_STRING]) with
        | none =>
          have hload : load_w_h_and_maybe_lr fs path = .error .notFound := by
            unfold load_w_h_and_maybe_lr
            rw [if_pos hdir, hwb, hhb]
          simp only [hload] at hok
          simp at hok
        | some hv =>
          cases hlrb : fs.blob (join_path [path, LR_VECTOR_STRING]) with
          | none => rfl
          | some lv =>
            have hload : load_w_h_and_maybe_lr fs path = .ok (wv, hv, some lv) := by
              unfold load_w_h_and_maybe_lr
              rw [if_pos hdir, hwb, hhb, hlrb]
            simp only [hload] at hok
            simp at hok
    · have hload : load_w_h_and_maybe_lr fs path = .error .notFound := by
        unfold load_w_h_and_maybe_lr
        rw [if_neg hdir]
      simp only [hload] at hok
      simp at hok

/-- Witness for C10: with every blob present (so in particular a learning-rate
blob), loading the canonical `prefix_opt` artifact trips the assertion. -/
theorem prefix_sum_rejects_lr_witness :
    get_prefix_sum_w_h fullStore 2 PREFIX_OPT = .error .assertionError :=
  (prefix_sum_rejects_lr fullStore 2 PREFIX_OPT (get_matrix_path 2 PREFIX_OPT)
    rfl).1 ⟨rfl, rfl, rfl, rfl⟩

theorem tensor_eq {α : Type} (a b : Tensor α) (hd : a.dtype = b.dtype)
    (hr : a.rows = b.rows) (hc : a.cols = b.cols) (he : a.entries = b.entries) :
    a = b := by
  cases a
  cases b
  simp_all

theorem le_foldl_max (l : List ℝ) : ∀ a : ℝ, a ≤ l.foldl max a := by
  induction l with
  | nil => intro a; exact le_refl a
  | cons x xs ih =>
    intro a
    exact le_trans (le_max_left a x) (ih (max a x))

theorem maxColNorm_nonneg (h : Tensor ℝ) : 0 ≤ maxColNorm h :=
  le_foldl_max _ 0

theorem foldl_max_div (m : ℝ) (hm : 0 ≤ m) (l : List ℝ) :
    ∀ a : ℝ, (l.map (· / m)).foldl max (a / m) = (l.foldl max a) / m := by
  induction l with
  | nil => intro a; rfl
  | cons x xs ih =>
    intro a
    show (xs.map (· / m)).foldl max (max (a / m) (x / m)) = (xs.foldl max (max a x)) / m
    rw [max_div_div_right hm, ih]

theorem colNorm_scaleDiv (h : Tensor ℝ) (m : ℝ) (hm : 0 < m) (j : ℕ) :
    colNorm (scaleDiv h m) j = colNorm h j / m := by
  rw [colNorm, colNorm]
  show Real.sqrt (∑ i ∈ Finset.range h.rows, (h.entries i j / m) ^ 2) = _
  have hsq : ∀ i ∈ Finset.range h.rows,
      (h.entries i j / m) ^ 2 = h.entries i j ^ 2 / m ^ 2 := by
    intro i _
    rw [div_pow]
  rw [Finset.sum_congr rfl hsq, ← Finset.sum_div,
    Real.sqrt_div (by positivity) (m ^ 2), Real.sqrt_sq hm.le]

theorem maxColNorm_scaleDiv (h : Tensor ℝ) (m : ℝ) (hm : 0 < m) :
    maxColNorm (scaleDiv h m) = maxColNorm h / m := by
  rw [maxColNorm, maxColNorm]
  show ((List.range h.cols).map (colNorm (scaleDiv h m))).foldl max 0 = _
  have hmap : (List.range h.cols).map (colNorm (scaleDiv h m)) =
      ((List.range h.cols).map (colNorm h)).map (· / m) := by
    rw [List.map_map]
    apply List.map_congr_left
    intro j _
    exact colNorm_scaleDiv h m hm j
  rw [hmap, show (0 : ℝ) = 0 / m from (zero_div m).symm, foldl_max_div m hm.le]
  rw [zero_div]

/-- C4: when H's maximum column norm m is nonzero, the scaler returns
`(W * m, H / m)` whose matrix product equals `W @ H` exactly and whose
rescaled H has maximum column norm exactly 1 (exact in real arithmetic, the
idealization of the float computation). -/
theorem scale_preserves_product_and_normalizes (w h : Tensor ℝ)
    (hm : maxColNorm h ≠ 0) :
    matmul (scale_w_h_by_single_participation_sensitivity w h).1
        (scale_w_h_by_single_participation_sensitivity w h).2 = matmul w h ∧
    maxColNorm (scale_w_h_by_single_participation_sensitivity w h).2 = 1 := by
  have hpos : 0 < maxColNorm h := lt_of_le_of_ne (maxColNorm_nonneg h) (Ne.symm hm)
  constructor
  · refine tensor_eq _ _ rfl rfl rfl ?_
    funext i j
    show ∑ k ∈ Finset.range w.cols,
        (w.entries i k * maxColNorm h) * (h.entries k j / maxColNorm h) =
      ∑ k ∈ Finset.range w.cols, w.entries i k * h.entries k j
    apply Finset.sum_congr rfl
    intro k _
    field_simp
    ring
  · show maxColNorm (scaleDiv h (maxColNorm h)) = 1
    rw [maxColNorm_scaleDiv h (maxColNorm h) hpos, div_self hm]

theorem maxColNorm_realOneT : maxColNorm realOneT = 1 := by
  rw [maxColNorm]
  show ((List.range 1).map (colNorm realOneT)).foldl max 0 = 1
  rw [show List.range 1 = [0] from rfl]
  show max 0 (colNorm realOneT 0) = 1
  rw [colNorm]
  show max 0 (Real.sqrt (∑ i ∈ Finset.range 1, realOneT.entries i 0 ^ 2)) = 1
  rw [Finset.sum_range_one]
  show max 0 (Real.sqrt ((1 : ℝ) ^ 2)) = 1
  rw [one_pow, Real.sqrt_one]
  exact max_eq_right zero_le_one

/-- Witness for C4 at 1-by-1 all-ones tensors, whose maximum column norm
is 1. -/
theorem scale_preserves_product_and_normalizes_witness :
    matmul (scale_w_h_by_single_participation_sensitivity realOneT realOneT).1
        (scale_w_h_by_single_participation_sensitivity realOneT realOneT).2 =
      matmul realOneT realOneT ∧
    maxColNorm (scale_w_h_by_single_participation_sensitivity realOneT realOneT).2 = 1 :=
  scale_preserves_product_and_normalizes realOneT realOneT
    (by rw [maxColNorm_realOneT]; norm_num)

/-- C5 evaluation at the failing input: on an all-zero H the scaler raises
nothing — the source has no error path at all — and proceeds to divide by the
zero maximum column norm, returning literally `(W * 0, H / 0)` (elementwise
inf/NaN in IEEE arithmetic), where the claim expects an InvalidArgument
failure. -/
theorem scale_zero_H_divides_by_zero :
    maxColNorm zeroT = 0 ∧
    scale_w_h_by_single_participation_sensitivity zeroT zeroT =
      (scaleMul zeroT 0, scaleDiv zeroT 0) := by
  have h0 : maxColNorm zeroT = 0 := by
    rw [maxColNorm]
    show ((List.range 1).map (colNorm zeroT)).foldl max 0 = 0
    rw [show List.range 1 = [0] from rfl]
    show max 0 (colNorm zeroT 0) = 0
    rw [colNorm]
    show max 0 (Real.sqrt (∑ i ∈ Finset.range 1, zeroT.entries i 0 ^ 2)) = 0
    rw [Finset.sum_range_one]
    show max 0 (Real.sqrt ((0 : ℝ) ^ 2)) = 0
    rw [pow_two, mul_zero, Real.sqrt_zero, max_self]
  exact ⟨h0, by rw [scale_w_h_by_single_participation_sensitivity, h0]⟩

